import Mathlib

/-!
Shallow embedding of src/scripts/trading_client.py (an interactive HTTP client
for a trading API) and proofs about its parser, dispatcher, renderer, session
state and main loop.  Python strings are modelled as `List Char` where character
level operations matter; the model is restricted to ASCII text (Python `lower`,
`strip`, `split` and `int` also act on further Unicode classes, which no claim
exercises).
-/

namespace TradingClientModel

/-- Whitespace test used to model Python `str.strip` and `str.split`
(space, tab, carriage return, line feed). -/
def isSpace (c : Char) : Bool := c.isWhitespace

/-- Model of Python `str.strip`: drop whitespace from both ends. -/
def strip (cs : List Char) : List Char :=
  ((cs.dropWhile isSpace).reverse.dropWhile isSpace).reverse

/-- Model of Python `str.lower` on ASCII text: map `Char.toLower`. -/
def lowerL (cs : List Char) : List Char := cs.map Char.toLower

/-- Model of Python `str.startswith`: `startsWithL pat cs` holds when `cs`
begins with `pat`. -/
def startsWithL : List Char → List Char → Bool
  | [], _ => true
  | _ :: _, [] => false
  | p :: ps, c :: cs => p == c && startsWithL ps cs

/-- Helper for `splitWs`; the second argument accumulates the current word in
reverse order. -/
def splitWsAux : List Char → List Char → List (List Char)
  | [], acc => if acc = [] then [] else [acc.reverse]
  | c :: rest, acc =>
    if isSpace c then
      if acc = [] then splitWsAux rest []
      else acc.reverse :: splitWsAux rest []
    else splitWsAux rest (c :: acc)

/-- Model of Python `str.split()` with no separator argument: split on runs of
whitespace, producing no empty words. -/
def splitWs (cs : List Char) : List (List Char) := splitWsAux cs []

/-- Continuation of a Python integer literal body: digits, with single
underscores allowed only between digits. -/
def pyDigitsRest : List Char → Bool
  | [] => true
  | '_' :: c :: rest => c.isDigit && pyDigitsRest rest
  | ['_'] => false
  | c :: rest => c.isDigit && pyDigitsRest rest

/-- Body of a Python integer literal: at least one digit, then `pyDigitsRest`. -/
def pyDigits : List Char → Bool
  | [] => false
  | c :: rest => c.isDigit && pyDigitsRest rest

/-- Numeric value of a digit sequence, ignoring underscores. -/
def digitsVal (cs : List Char) : Nat :=
  (cs.filter (fun c => c != '_')).foldl (fun a c => 10 * a + (c.toNat - 48)) 0

/-- Model of Python `int(str)`: optional surrounding whitespace, optional sign,
then digits with single underscores between digits; `none` models `ValueError`.
(Non-ASCII digit characters accepted by CPython are outside this model.) -/
def pyIntOfChars (s : List Char) : Option Int :=
  let t := strip s
  match t with
  | '+' :: rest => if pyDigits rest then some (Int.ofNat (digitsVal rest)) else none
  | '-' :: rest => if pyDigits rest then some (-(Int.ofNat (digitsVal rest))) else none
  | _ => if pyDigits t then some (Int.ofNat (digitsVal t)) else none

/-- Typed command produced by classifying one input line (the data model of the
specification; the source implements this classification inline in `main`). -/
inductive Command where
  | quit : Command
  | help : Command
  | setToken : String → Command
  | directLeverageUpdate : Int → Int → Command
  | naturalLanguagePrompt : String → Command
  | unrecognized : String → Command
  | skip : Command
  deriving DecidableEq

/-- Error text returned by `send_prompt` and `update_leverage` when no token is
set (trading_client.py lines 43 and 61). -/
def tokenNotSetMsg : String := "Token not set. Use \u0027token <your_token>\u0027 first."

/-- Message printed when the `token` keyword has an empty remainder (line 143). -/
def missingTokenMsg : String := "Please provide a token after \u0027token\u0027"

/-- Message printed when a `leverage` argument fails integer parsing (line 155). -/
def invalidLeverageMsg : String := "Invalid format. Use: leverage <asset_id> <leverage>"

/-- Message printed when a `leverage` line has the wrong token count (line 157). -/
def leverageUsageMsg : String := "Usage: leverage <asset_id> <leverage> (e.g., leverage 0 20)"

/-- Classification of one raw input line, mirroring the if/elif chain of `main`
(trading_client.py lines 117-163): strip the line; empty line is a no-op;
compare the lowercased line with quit/exit/q and help; `token ` keyword takes
the stripped remainder of the original line; `leverage ` splits the original
line on whitespace, requiring three words whose second and third parse as
integers; anything else is a natural-language prompt kept verbatim. -/
def parse (raw : String) : Command :=
  let st := strip raw.toList
  if st = [] then .skip
  else if lowerL st = "quit".toList ∨ lowerL st = "exit".toList ∨ lowerL st = "q".toList then
    .quit
  else if lowerL st = "help".toList then .help
  else if startsWithL "token ".toList (lowerL st) then
    let tok := strip (st.drop 6)
    if tok = [] then .unrecognized missingTokenMsg
    else .setToken tok.asString
  else if startsWithL "leverage ".toList (lowerL st) then
    let parts := splitWs st
    if parts.length = 3 then
      match pyIntOfChars (parts.getD 1 []), pyIntOfChars (parts.getD 2 []) with
      | some a, some b => .directLeverageUpdate a b
      | _, _ => .unrecognized invalidLeverageMsg
    else .unrecognized leverageUsageMsg
  else .naturalLanguagePrompt st.asString

/-- One element of the remote payload `actions` array (spec SubActionResult):
`tool` maps to the label, `success` to the ok flag (absent key is falsy),
`error` to the error detail. -/
structure SubAction where
  tool : Option String
  success : Bool
  error : Option String
  deriving DecidableEq

/-- Decoded JSON body of a remote reply, with the keys `print_response` and the
dispatch paths inspect (spec Response): absent `success` reads as `false`
(Python `response.get` with default), absent optional keys read as `none`. -/
structure ApiResponse where
  success : Bool := false
  message : Option String := none
  error : Option String := none
  details : Option String := none
  actions : List SubAction := []
  deriving DecidableEq

/-- Outcome of one HTTP request as seen by the caller of `requests`:
`http status body` is a reply of any status whose body decoded as JSON;
`err msg` is a raised `requests.exceptions.RequestException` (connection
refused, timeout, or a malformed body — `JSONDecodeError` is a
`RequestException`), carrying the exception text. -/
inductive TransportOutcome where
  | http : Nat → ApiResponse → TransportOutcome
  | err : String → TransportOutcome
  deriving DecidableEq

/-- JSON body of an attempted HTTP request. -/
inductive ReqBody where
  | emptyBody : ReqBody
  | promptBody : String → ReqBody
  | leverageBody : Int → Int → ReqBody
  deriving DecidableEq

/-- Record of one attempted HTTP request: method, path, body and timeout
seconds. -/
structure NetCall where
  method : String
  path : String
  body : ReqBody
  timeout : Nat
  deriving DecidableEq

/-- Session state of the client (class TradingClient, lines 15-18): base URL,
optional token, and the Authorization header entry (the Content-Type header is
a constant and is not modelled).  `authorization` models
`self.headers["Authorization"]`, absent until `set_token` runs. -/
structure TradingClient where
  base_url : String
  token : Option String
  authorization : Option String
  deriving DecidableEq

/-- Fresh client as built by `TradingClient()` (lines 15-18). -/
def initClient : TradingClient :=
  { base_url := "http://localhost:3030", token := none, authorization := none }

/-- Truthiness of `not self.token` (Python: `None` and the empty string are
falsy), the guard of lines 42 and 60. -/
def tokenNotSet (c : TradingClient) : Bool :=
  match c.token with
  | none => true
  | some t => t = ""

/-- Spec `isAuthenticated()`: a non-empty token is present. -/
def isAuthenticated (c : TradingClient) : Bool := !(tokenNotSet c)

/-- Spec `authHeaderValue()`: the stored Authorization header entry, absent
when no token was ever set. -/
def authHeaderValue (c : TradingClient) : Option String := c.authorization

/-- Model of `TradingClient.set_token` (lines 20-23): store the token and the
bearer header.  (The confirmation line it prints is emitted by `loopIter`.) -/
def set_token (c : TradingClient) (token : String) : TradingClient :=
  { c with token := some token, authorization := some ("Bearer " ++ token) }

/-- Response dictionary built by the `except` arms of `send_prompt` and
`update_leverage` (lines 56 and 74): a single `error` key. -/
def requestFailedResp (msg : String) : ApiResponse :=
  { error := some ("Request failed: " ++ msg) }

/-- Response dictionary returned when no token is set (lines 43 and 61). -/
def tokenNotSetResp : ApiResponse := { error := some tokenNotSetMsg }

/-- What the `try` body of a POST produces from a transport outcome: the JSON
body of the reply regardless of HTTP status (the source never checks
`status_code` here), or the `except` arm dictionary. -/
def postResult : TransportOutcome → ApiResponse
  | .http _ body => body
  | .err msg => requestFailedResp msg

/-- Model of `TradingClient.send_prompt` (lines 40-56).  The transport outcome
the network would deliver is passed as an argument; the returned list records
the HTTP requests actually attempted, so an unauthenticated call is visibly
network-free. -/
def send_prompt (c : TradingClient) (prompt : String) (tr : TransportOutcome) :
    ApiResponse × List NetCall :=
  if tokenNotSet c then (tokenNotSetResp, [])
  else (postResult tr, [⟨"POST", "/api/prompt", .promptBody prompt, 120⟩])

/-- Model of `TradingClient.update_leverage` (lines 58-74), as `send_prompt`. -/
def update_leverage (c : TradingClient) (assetId leverage : Int)
    (tr : TransportOutcome) : ApiResponse × List NetCall :=
  if tokenNotSet c then (tokenNotSetResp, [])
  else (postResult tr, [⟨"POST", "/api/update_leverage", .leverageBody assetId leverage, 30⟩])

/-- Lines printed for the sub-action at 1-based position `i` (lines 90-94):
its ordinal, its own ok/fail indicator and its label, plus an indented error
line only when it failed and carries an `error` key. -/
def renderAction (i : Nat) (a : SubAction) : List String :=
  (("  " ++ toString i ++ ". " ++ (if a.success then "✅" else "❌") ++ " "
      ++ a.tool.getD "unknown") ::
    (match a.success, a.error with
     | false, some e => ["     Error: " ++ e]
     | _, _ => []))

/-- Lines printed for a list of sub-actions, numbering from `i` (the
`enumerate(response["actions"], 1)` loop of line 89). -/
def renderActions (i : Nat) : List SubAction → List String
  | [] => []
  | a :: rest => renderAction i a ++ renderActions (i + 1) rest

/-- Model of `TradingClient.print_response` (lines 76-94) as the list of lines
printed.  The `print("\n📋 Actions executed:")` call is modelled as an empty
line followed by the header line. -/
def print_response (r : ApiResponse) : List String :=
  match r.error with
  | some e =>
    ("❌ Error: " ++ e) ::
      (match r.details with
       | some d => ["   Details: " ++ d]
       | none => [])
  | none =>
    ((if r.success then "✅" else "❌") ++ " " ++ r.message.getD "No message") ::
      (match r.actions with
       | [] => []
       | _ :: _ => "" :: "📋 Actions executed:" :: renderActions 1 r.actions)

/-- Whether one loop iteration continues the read loop or breaks out of it. -/
inductive LoopFlow where
  | cont : LoopFlow
  | brk : LoopFlow
  deriving DecidableEq

/-- One unit of interaction offered to the loop: a raw input line together with
the transport outcome the network would deliver if this line causes a POST, or
a `KeyboardInterrupt` raised while waiting for input. -/
inductive LoopEvent where
  | line : String → TransportOutcome → LoopEvent
  | interrupt : LoopEvent
  deriving DecidableEq

/-- Effect of one loop iteration: the new session state, whether the loop
continues, the lines printed, and the HTTP requests attempted. -/
structure LoopStepResult where
  client : TradingClient
  flow : LoopFlow
  out : List String
  calls : List NetCall
  deriving DecidableEq

/-- Lines printed by the `help` branch (lines 127-136); a leading `\n` inside a
printed string is modelled as a separate empty line. -/
def helpLines : List String :=
  ["", "📖 Available Commands:",
   "  • Natural language prompts (e.g., \u0027Set BTC leverage to 20x\u0027)",
   "  • \u0027token <your_jwt>\u0027 to authenticate",
   "  • \u0027leverage <asset_id> <leverage>\u0027 for direct API call",
   "  • \u0027quit\u0027 to exit",
   "", "💡 Example prompts:",
   "  - \u0027Set BTC leverage to 25x\u0027",
   "  - \u0027Buy 0.1 ETH at market price\u0027",
   "  - \u0027Sell 0.05 BTC at 95000\u0027",
   ""]

/-- One iteration of the `while True` body of `main` (lines 115-169), factored
through `parse`, which is definitionally the same branch chain the source
evaluates inline.  The confirmation line of `set_token` and the error lines of
the `token`/`leverage` branches are printed here, exactly as the source does. -/
def loopIter (c : TradingClient) (ev : LoopEvent) : LoopStepResult :=
  match ev with
  | .interrupt => ⟨c, .brk, ["", "👋 Goodbye!"], []⟩
  | .line raw tr =>
    match parse raw with
    | .skip => ⟨c, .cont, [], []⟩
    | .quit => ⟨c, .brk, ["👋 Goodbye!"], []⟩
    | .help => ⟨c, .cont, helpLines, []⟩
    | .setToken v => ⟨set_token c v, .cont, ["✅ Token set successfully!"], []⟩
    | .unrecognized reason => ⟨c, .cont, ["❌ " ++ reason], []⟩
    | .directLeverageUpdate a b =>
      let r := update_leverage c a b tr
      ⟨c, .cont,
        ("🔄 Setting asset " ++ toString a ++ " leverage to " ++ toString b ++ "x...") ::
          print_response r.1, r.2⟩
    | .naturalLanguagePrompt text =>
      let r := send_prompt c text tr
      ⟨c, .cont, ("🤖 Processing: " ++ text) :: print_response r.1, r.2⟩

/-- Run of the read loop over a finite stream of events, stopping early when an
iteration breaks (quit or interrupt); returns the final session state, printed
lines and attempted requests. -/
def runLoop : TradingClient → List LoopEvent → TradingClient × List String × List NetCall
  | c, [] => (c, [], [])
  | c, ev :: rest =>
    let r := loopIter c ev
    match r.flow with
    | .brk => (r.client, r.out, r.calls)
    | .cont =>
      let rec2 := runLoop r.client rest
      (rec2.1, r.out ++ rec2.2.1, r.calls ++ rec2.2.2)

/-- Model of `TradingClient.health_check` (lines 26-38): true exactly on HTTP
status 200; any other status or a request exception prints a failure line and
is false.  The reply body is never read here, so for this GET the `err` arm
stands only for connection-level failures. -/
def health_check : TransportOutcome → Bool × List String
  | .http status _ =>
    if status = 200 then (true, ["✅ API server is running"])
    else (false, ["❌ API server returned status " ++ toString status])
  | .err msg => (false, ["❌ Failed to connect to API server: " ++ msg])

/-- Banner printed at startup (lines 99-100). -/
def bannerLines : List String :=
  ["🚀 Hyperliquid Trading Client", String.mk (List.replicate 50 '=')]

/-- Command summary printed after a successful health probe (lines 107-113). -/
def commandSummaryLines : List String :=
  ["", "📝 Commands:",
   "  token <jwt_token>     - Set authentication token",
   "  help                  - Show available commands",
   "  leverage <asset> <lev> - Direct leverage update (0=BTC, 1=ETH)",
   "  quit/exit             - Exit the client",
   "  <any other text>      - Send as trading prompt to AI agent",
   ""]

/-- The GET issued by the health probe. -/
def healthCall : NetCall := ⟨"GET", "/health", .emptyBody, 5⟩

/-- Result of a whole program run: process exit code, printed lines, attempted
HTTP requests, final session state. -/
structure MainResult where
  exitCode : Nat
  out : List String
  calls : List NetCall
  client : TradingClient
  deriving DecidableEq

/-- Model of `main` (lines 96-169): banner, health probe (exit code 1 and no
read loop when it fails), command summary, then the read loop; a run that ends
by quit, interrupt or end of input exits with code 0. -/
def mainRun (probe : TransportOutcome) (events : List LoopEvent) : MainResult :=
  let hc := health_check probe
  if hc.1 then
    let r := runLoop initClient events
    ⟨0, bannerLines ++ hc.2 ++ commandSummaryLines ++ r.2.1, healthCall :: r.2.2, r.1⟩
  else
    ⟨1, bannerLines ++ hc.2 ++ ["Please make sure the API server is running on port 3030"],
      [healthCall], initClient⟩

/-- Response with both an error detail and a non-empty actions list, used to
refute the rendering claim that such a response takes the status-line path. -/
def errorWithActionsResp : ApiResponse :=
  { success := true, message := some "done", error := some "boom",
    actions := [⟨some "setLeverage", true, none⟩] }

/-- Decoded form of the remote payload of the round-trip example:
success true, message done, one successful setLeverage action. -/
def respDone : ApiResponse :=
  { success := true, message := some "done",
    actions := [⟨some "setLeverage", true, none⟩] }

/-! ## Theorems -/

/-- C1: for every session whose token is not set, dispatching a
DirectLeverageUpdate or a NaturalLanguagePrompt command returns the
token-not-set response (ok false, error detail saying the token is not set) and
attempts no HTTP request at all, also when the dispatch is driven by a loop
iteration. -/
theorem C1_unauthenticated_no_network (c : TradingClient) (prompt : String)
    (a b : Int) (tr : TransportOutcome) (h : tokenNotSet c = true) :
    send_prompt c prompt tr = (tokenNotSetResp, []) ∧
    update_leverage c a b tr = (tokenNotSetResp, []) ∧
    tokenNotSetResp.success = false ∧
    tokenNotSetResp.error = some "Token not set. Use \u0027token <your_token>\u0027 first." ∧
    (∀ raw tr2 x y, parse raw = .directLeverageUpdate x y →
      (loopIter c (.line raw tr2)).calls = []) ∧
    (∀ raw tr2 t, parse raw = .naturalLanguagePrompt t →
      (loopIter c (.line raw tr2)).calls = []) := by
  refine ⟨?_, ?_, rfl, rfl, ?_, ?_⟩
  · simp [send_prompt, h]
  · simp [update_leverage, h]
  · intro raw tr2 x y hp
    simp [loopIter, hp, update_leverage, h]
  · intro raw tr2 t hp
    simp [loopIter, hp, send_prompt, h]

/-- Witness for C1 at the freshly created client and a concrete command. -/
theorem C1_witness :
    send_prompt initClient "Set BTC leverage to 20x" (.http 200 respDone) =
      (tokenNotSetResp, []) :=
  (C1_unauthenticated_no_network initClient "Set BTC leverage to 20x" 0 20
    (.http 200 respDone) (by decide)).1

/-- C5: a non-2xx HTTP status alone never becomes a transport error: for any
status the decoded body is handed upward unchanged (the dispatch result does
not depend on the status at all), while a raised request exception (connection
refused, timeout, malformed body) becomes the request-failed response. -/
theorem C5_status_not_checked (c : TradingClient) (prompt : String) (a b : Int)
    (status : Nat) (body : ApiResponse) (h : tokenNotSet c = false) :
    (send_prompt c prompt (.http status body)).1 = body ∧
    (update_leverage c a b (.http status body)).1 = body ∧
    send_prompt c prompt (.http status body) = send_prompt c prompt (.http 200 body) ∧
    update_leverage c a b (.http status body) = update_leverage c a b (.http 200 body) ∧
    (∀ m, (send_prompt c prompt (.err m)).1 = requestFailedResp m) ∧
    (∀ m, (update_leverage c a b (.err m)).1 = requestFailedResp m) := by
  simp [send_prompt, update_leverage, h, postResult]

/-- Witness for C5: an authenticated client receiving a 500 reply still gets
the decoded body. -/
theorem C5_witness :
    (send_prompt (set_token initClient "tok") "hello" (.http 500 respDone)).1 =
      respDone :=
  (C5_status_not_checked (set_token initClient "tok") "hello" 0 20 500 respDone
    (by decide)).1

/-- C8 counterexample: the claim quantifies over every token value, but with
the empty string the session stays unauthenticated after two set_token calls
(Python treats an empty token as falsy), so isAuthenticated is not true. -/
theorem C8_counterexample :
    isAuthenticated (set_token (set_token initClient "") "") = false := by
  decide

/-- C8 amended: set_token is idempotent for every value — a second identical
call leaves the whole session state, and in particular authHeaderValue,
unchanged — and isAuthenticated is true provided the value is non-empty. -/
theorem C8_amended_idempotent (c : TradingClient) (v : String) :
    set_token (set_token c v) v = set_token c v ∧
    authHeaderValue (set_token (set_token c v) v) = authHeaderValue (set_token c v) ∧
    (v ≠ "" → isAuthenticated (set_token (set_token c v) v) = true) := by
  refine ⟨rfl, rfl, ?_⟩
  intro hv
  simp [isAuthenticated, tokenNotSet, set_token, hv]

/-- Witness for C8 at a concrete non-empty token. -/
theorem C8_witness :
    isAuthenticated (set_token (set_token initClient "abc") "abc") = true :=
  (C8_amended_idempotent initClient "abc").2.2 (by decide)

/-- C2 counterexample: a response whose error detail is set and whose actions
list is non-empty is rendered as the single error line — not, as the claim
states, as a status line followed by sub-action lines. -/
theorem C2_counterexample :
    errorWithActionsResp.error = some "boom" ∧
    errorWithActionsResp.actions ≠ [] ∧
    print_response errorWithActionsResp = ["❌ Error: boom"] := by
  refine ⟨rfl, by decide, rfl⟩

/-- C2 amended: the renderer takes the error path exactly when the error
detail is set — regardless of the ok flag and of the sub-actions — printing
the error line and, when a details field is present, an indented details line;
every response without an error detail gets the status line (with the generic
placeholder when the message is absent) followed by the sub-action section
when actions are present. -/
theorem C2_amended_render (r : ApiResponse) :
    (∀ e, r.error = some e →
      print_response r =
        ("❌ Error: " ++ e) ::
          (match r.details with
           | some d => ["   Details: " ++ d]
           | none => [])) ∧
    (r.error = none →
      print_response r =
        ((if r.success then "✅" else "❌") ++ " " ++ r.message.getD "No message") ::
          (match r.actions with
           | [] => []
           | _ :: _ => "" :: "📋 Actions executed:" :: renderActions 1 r.actions)) := by
  constructor
  · intro e he
    simp [print_response, he]
  · intro he
    simp [print_response, he]

/-- Witness for C2 on the payload of the specification example: error
"bad token" with details "expired" renders as one error line and one details
line, no sub-action lines. -/
theorem C2_witness :
    print_response { error := some "bad token", details := some "expired" } =
      ["❌ Error: bad token", "   Details: expired"] := by
  have h := (C2_amended_render
    { error := some "bad token", details := some "expired" }).1 "bad token" rfl
  simpa using h

/-- Unfolding of parse with its local bindings expanded, for case analysis. -/
theorem parse_eq (raw : String) :
    parse raw =
      (if strip raw.toList = [] then .skip
       else if lowerL (strip raw.toList) = "quit".toList ∨
           lowerL (strip raw.toList) = "exit".toList ∨
           lowerL (strip raw.toList) = "q".toList then .quit
       else if lowerL (strip raw.toList) = "help".toList then .help
       else if startsWithL "token ".toList (lowerL (strip raw.toList)) then
         if strip ((strip raw.toList).drop 6) = [] then .unrecognized missingTokenMsg
         else .setToken (strip ((strip raw.toList).drop 6)).asString
       else if startsWithL "leverage ".toList (lowerL (strip raw.toList)) then
         if (splitWs (strip raw.toList)).length = 3 then
           match pyIntOfChars ((splitWs (strip raw.toList)).getD 1 []),
               pyIntOfChars ((splitWs (strip raw.toList)).getD 2 []) with
           | some a, some b => .directLeverageUpdate a b
           | _, _ => .unrecognized invalidLeverageMsg
         else .unrecognized leverageUsageMsg
       else .naturalLanguagePrompt (strip raw.toList).asString) := rfl

/-- A parsed setToken command always carries a non-empty value: the source
only calls set_token after checking the stripped remainder is truthy. -/
theorem parse_setToken_ne_empty (raw v : String)
    (h : parse raw = .setToken v) : v ≠ "" := by
  rw [parse_eq] at h
  split at h
  · exact absurd h (by simp)
  split at h
  · exact absurd h (by simp)
  split at h
  · exact absurd h (by simp)
  split at h
  · split at h
    · exact absurd h (by simp)
    · rename_i htok
      have hv : v = (strip ((strip raw.toList).drop 6)).asString :=
        (Command.setToken.inj h).symm
      intro hemp
      apply htok
      have : (strip ((strip raw.toList).drop 6)).asString.data = ("" : String).data := by
        rw [← hv, hemp]
      simpa [List.asString] using this
  · split at h
    · split at h
      · split at h <;> exact absurd h (by simp)
      · exact absurd h (by simp)
    · exact absurd h (by simp)

/-- A loop iteration breaks exactly on an interrupt or a line parsing to quit. -/
theorem loopIter_brk (c : TradingClient) (ev : LoopEvent) :
    (loopIter c ev).flow = .brk ↔
      ev = .interrupt ∨ ∃ raw tr, ev = .line raw tr ∧ parse raw = .quit := by
  cases ev with
  | interrupt => simp [loopIter]
  | line raw tr =>
    cases hp : parse raw <;> simp [loopIter, hp]

/-- Auth state never changes within an iteration except through set_token. -/
theorem loopIter_preserves_auth (c : TradingClient) (ev : LoopEvent)
    (h : isAuthenticated c = true) : isAuthenticated (loopIter c ev).client = true := by
  cases ev with
  | interrupt => simpa [loopIter] using h
  | line raw tr =>
    cases hp : parse raw with
    | setToken v =>
      have hv := parse_setToken_ne_empty raw v hp
      simp [loopIter, hp, isAuthenticated, tokenNotSet, set_token, hv]
    | _ => simpa [loopIter, hp] using h

/-- Auth state is preserved across any finite run of the loop. -/
theorem runLoop_preserves_auth :
    ∀ (events : List LoopEvent) (c : TradingClient),
      isAuthenticated c = true → isAuthenticated (runLoop c events).1 = true := by
  intro events
  induction events with
  | nil => intro c h; simpa [runLoop] using h
  | cons ev rest ih =>
    intro c h
    have hstep := loopIter_preserves_auth c ev h
    cases hflow : (loopIter c ev).flow with
    | brk => simpa [runLoop, hflow] using hstep
    | cont => simpa [runLoop, hflow] using ih (loopIter c ev).client hstep

/-- C3: a transport error during dispatch of a leverage update or a prompt is
converted into a response with ok false whose error detail carries the
transport error message (never raised), and the loop keeps accepting input: an
iteration continues for every line except one parsing to quit, and it breaks
only on quit or interrupt. -/
theorem C3_transport_error_recovered (c : TradingClient) (prompt : String)
    (a b : Int) (m : String) (h : tokenNotSet c = false) :
    (send_prompt c prompt (.err m)).1 = requestFailedResp m ∧
    (update_leverage c a b (.err m)).1 = requestFailedResp m ∧
    (requestFailedResp m).success = false ∧
    (requestFailedResp m).error = some ("Request failed: " ++ m) ∧
    (∀ raw tr, parse raw ≠ .quit → (loopIter c (.line raw tr)).flow = .cont) ∧
    (∀ ev, (loopIter c ev).flow = .brk →
      ev = .interrupt ∨ ∃ raw tr, ev = .line raw tr ∧ parse raw = .quit) := by
  refine ⟨?_, ?_, rfl, rfl, ?_, ?_⟩
  · simp [send_prompt, h, postResult]
  · simp [update_leverage, h, postResult]
  · intro raw tr hq
    cases hp : parse raw <;> simp_all [loopIter, hp]
  · intro ev
    exact (loopIter_brk c ev).mp

/-- Witness for C3: an authenticated client hit by a connection failure gets
the request-failed response, and a subsequent prompt line keeps the loop
going. -/
theorem C3_witness :
    (send_prompt (set_token initClient "tok") "buy" (.err "Connection refused")).1 =
      requestFailedResp "Connection refused" :=
  (C3_transport_error_recovered (set_token initClient "tok") "buy" 0 20
    "Connection refused" (by decide)).1

/-- C10: authentication is monotone — from any authenticated session state,
every reachable loop state (one iteration, or any finite run of iterations)
stays authenticated; no command path clears the token. -/
theorem C10_auth_monotone (c : TradingClient) (events : List LoopEvent)
    (h : isAuthenticated c = true) :
    isAuthenticated (runLoop c events).1 = true ∧
    (∀ ev, isAuthenticated (loopIter c ev).client = true) := by
  exact ⟨runLoop_preserves_auth events c h, fun ev => loopIter_preserves_auth c ev h⟩

/-- Witness for C10 after setting a concrete token and running two lines. -/
theorem C10_witness :
    isAuthenticated (runLoop (set_token initClient "tok")
      [.line "help" (.err "x"), .line "hello there" (.http 200 respDone)]).1 = true :=
  (C10_auth_monotone (set_token initClient "tok")
    [.line "help" (.err "x"), .line "hello there" (.http 200 respDone)]
    (by decide)).1

/-- C7: the health probe runs before any input is read; when it fails
(connection failure, or any non-200 status) the program prints the failure,
exits with code 1 and never enters the read loop (the only attempted request is
the health GET and no event is consumed); when it returns 200 the program
prints the command summary and runs the read loop, exiting with code 0. -/
theorem C7_health_probe (probe : TransportOutcome) (events : List LoopEvent) :
    ((health_check probe).1 = false →
      mainRun probe events =
        ⟨1, bannerLines ++ (health_check probe).2 ++
            ["Please make sure the API server is running on port 3030"],
          [healthCall], initClient⟩) ∧
    ((health_check probe).1 = true →
      mainRun probe events =
        ⟨0, bannerLines ++ (health_check probe).2 ++ commandSummaryLines ++
            (runLoop initClient events).2.1,
          healthCall :: (runLoop initClient events).2.2,
          (runLoop initClient events).1⟩) ∧
    ((mainRun probe events).exitCode = 0 ↔ (health_check probe).1 = true) ∧
    (∀ s b, (health_check (.http s b)).1 = true ↔ s = 200) ∧
    (∀ m, (health_check (.err m)).1 = false) := by
  refine ⟨?_, ?_, ?_, ?_, ?_⟩
  · intro hfail
    simp [mainRun, hfail]
  · intro hok
    simp [mainRun, hok]
  · cases hok : (health_check probe).1 <;> simp [mainRun, hok]
  · intro s b
    by_cases hs : s = 200 <;> simp [health_check, hs]
  · intro m
    simp [health_check]

/-- Witness for C7 at a concrete connection failure: exit code 1 and only the
health GET attempted. -/
theorem C7_witness :
    mainRun (.err "Connection refused") [.line "hello" (.http 200 respDone)] =
      ⟨1, bannerLines ++ (health_check (.err "Connection refused")).2 ++
          ["Please make sure the API server is running on port 3030"],
        [healthCall], initClient⟩ :=
  (C7_health_probe (.err "Connection refused")
    [.line "hello" (.http 200 respDone)]).1 (by decide)

/-- The recursive sub-action printer equals the indexed form: one block per
list position, numbered from the starting ordinal. -/
theorem renderActions_eq_indexed (l : List SubAction) :
    ∀ i : Nat, renderActions i l =
      ((List.range l.length).map (fun k =>
        renderAction (i + k) (l.getD k ⟨none, false, none⟩))).flatten := by
  induction l with
  | nil => intro i; simp [renderActions]
  | cons a rest ih =>
    intro i
    rw [renderActions, ih (i + 1), List.length_cons, List.range_succ_eq_map]
    rw [List.map_cons, List.map_map, List.flatten_cons]
    congr 1
    apply congrArg List.flatten
    apply List.map_congr_left
    intro k _
    simp only [Function.comp_apply, List.getD_cons_succ]
    congr 1
    omega

/-- C6: a response without an error detail and with a non-empty actions list is
rendered as the status line, a blank line, the header, and then exactly one
block per sub-action in list order: line k (1-based ordinal k + 1 shown for
index k) carries the ordinal, the ok/fail indicator of that sub-action and its
label, followed by an indented error line exactly when that sub-action failed
and carries an error detail. -/
theorem C6_subaction_lines (r : ApiResponse) (he : r.error = none)
    (ha : r.actions ≠ []) :
    print_response r =
      ((if r.success then "✅" else "❌") ++ " " ++ r.message.getD "No message") :: "" ::
        "📋 Actions executed:" ::
        ((List.range r.actions.length).map (fun k =>
          (("  " ++ toString (k + 1) ++ ". "
              ++ (if (r.actions.getD k ⟨none, false, none⟩).success then "✅" else "❌")
              ++ " " ++ (r.actions.getD k ⟨none, false, none⟩).tool.getD "unknown") ::
            (match (r.actions.getD k ⟨none, false, none⟩).success,
                (r.actions.getD k ⟨none, false, none⟩).error with
             | false, some e => ["     Error: " ++ e]
             | _, _ => [])))).flatten := by
  obtain ⟨a, rest, hl⟩ : ∃ a rest, r.actions = a :: rest := by
    cases hx : r.actions with
    | nil => exact absurd hx ha
    | cons a rest => exact ⟨a, rest, rfl⟩
  simp only [print_response, he, hl]
  rw [renderActions_eq_indexed (a :: rest) 1]
  refine congrArg _ (congrArg _ (congrArg _ ?_))
  apply congrArg List.flatten
  apply List.map_congr_left
  intro k _
  rw [renderAction]
  rw [Nat.add_comm 1 k]

/-- Witness for C6 on the round-trip payload of the specification: status line
with "done", then one successful sub-action labeled setLeverage at position 1. -/
theorem C6_witness :
    print_response respDone =
      ["✅ done", "", "📋 Actions executed:", "  1. ✅ setLeverage"] := by
  have h := C6_subaction_lines respDone rfl (by decide)
  rw [h]
  decide

/-- Conversion of a valid code point back to its numeral. -/
theorem toNat_ofNat_valid (n : Nat) (h : n.isValidChar) :
    (Char.ofNat n).toNat = n := by
  rw [Char.ofNat, dif_pos h]
  rfl

/-- toLower fixes a character or maps it into the lowercase ASCII letters. -/
theorem toLower_eq_self_or_lower (c : Char) :
    Char.toLower c = c ∨
      (97 ≤ (Char.toLower c).toNat ∧ (Char.toLower c).toNat ≤ 122) := by
  rw [Char.toLower]
  split
  · rename_i hcond
    right
    have hvalid : (c.toNat + 32).isValidChar := Or.inl (by omega)
    rw [toNat_ofNat_valid _ hvalid]
    omega
  · left
    rfl

/-- Whitespace characters are fixed by toLower. -/
theorem toLower_of_isWhitespace (c : Char) (h : c.isWhitespace = true) :
    Char.toLower c = c := by
  have hc : ((c = ' ' ∨ c = '\t') ∨ c = '\r') ∨ c = '\n' := by
    simpa [Char.isWhitespace, Bool.or_eq_true, decide_eq_true_eq] using h
  rcases hc with ((hc | hc) | hc) | hc <;> subst hc <;> decide

/-- A character whose lowercase image is not whitespace is itself not
whitespace. -/
theorem not_ws_of_toLower (c x : Char) (hx : Char.toLower c = x)
    (h : x.isWhitespace = false) : c.isWhitespace = false := by
  cases hws : c.isWhitespace with
  | false => rfl
  | true =>
    rw [toLower_of_isWhitespace c hws] at hx
    rw [← hx] at h
    rw [hws] at h
    exact absurd h (by simp)

/-- A character whose lowercase image is the space character is whitespace. -/
theorem ws_of_toLower_eq_space (c : Char) (h : Char.toLower c = ' ') :
    c.isWhitespace = true := by
  rcases toLower_eq_self_or_lower c with h2 | ⟨h2, _⟩
  · rw [h2] at h
    subst h
    decide
  · rw [h] at h2
    exact absurd h2 (by decide)

/-- startsWithL is the boolean form of list-prefix decomposition. -/
theorem startsWithL_iff (p : List Char) :
    ∀ cs : List Char, startsWithL p cs = true ↔ ∃ q, cs = p ++ q := by
  induction p with
  | nil =>
    intro cs
    simp [startsWithL]
  | cons x xs ih =>
    intro cs
    cases cs with
    | nil =>
      simp [startsWithL]
    | cons c cs' =>
      rw [startsWithL]
      rw [Bool.and_eq_true, beq_iff_eq, ih cs']
      constructor
      · rintro ⟨hx, q, hq⟩
        exact ⟨q, by rw [← hx, hq, List.cons_append]⟩
      · rintro ⟨q, hq⟩
        rw [List.cons_append] at hq
        injection hq with h1 h2
        exact ⟨h1.symm, q, h2⟩

/-- Splitting a string that starts with a non-empty run of non-whitespace
characters followed by a whitespace character yields that run as the first
word, and then the words of the remainder. -/
theorem splitWsAux_word :
    ∀ (w acc : List Char) (c8 : Char) (rest : List Char),
      (∀ c ∈ w, isSpace c = false) → isSpace c8 = true → acc.reverse ++ w ≠ [] →
      splitWsAux (w ++ c8 :: rest) acc = (acc.reverse ++ w) :: splitWs rest := by
  intro w
  induction w with
  | nil =>
    intro acc c8 rest _ hc hne
    have hacc : ¬(acc = []) := by
      intro h
      exact hne (by simp [h])
    simp only [List.nil_append, splitWsAux, hc, if_true, hacc, if_false]
    simp [splitWs]
  | cons x w' ih =>
    intro acc c8 rest hw hc hne
    have hx : isSpace x = false := hw x (by simp)
    simp only [List.cons_append, splitWsAux, hx, Bool.false_eq_true, if_false,
      List.append_eq]
    rw [ih (x :: acc) c8 rest (fun c hc' => hw c (by simp [hc'])) hc (by simp)]
    simp

/-- Decomposition of a line whose lowercase form starts with the nine
characters of the leverage keyword: eight non-whitespace characters, one
whitespace character, then the rest, which is exactly drop 9. -/
theorem lev_decomp (st : List Char)
    (h : startsWithL "leverage ".toList (lowerL st) = true) :
    ∃ w c8 rest, st = w ++ c8 :: rest ∧ w.length = 8 ∧
      (∀ c ∈ w, isSpace c = false) ∧ isSpace c8 = true ∧ st.drop 9 = rest := by
  obtain ⟨q, hq⟩ := (startsWithL_iff _ _).mp h
  have hq' : List.map Char.toLower st =
      'l' :: 'e' :: 'v' :: 'e' :: 'r' :: 'a' :: 'g' :: 'e' :: ' ' :: q := by
    rw [show ("leverage ".toList) =
      ['l', 'e', 'v', 'e', 'r', 'a', 'g', 'e', ' '] from rfl] at hq
    simpa [lowerL] using hq
  obtain ⟨c0, s0, rfl, h0, hq'⟩ := List.map_eq_cons_iff.mp hq'
  obtain ⟨c1, s1, rfl, h1, hq'⟩ := List.map_eq_cons_iff.mp hq'
  obtain ⟨c2, s2, rfl, h2, hq'⟩ := List.map_eq_cons_iff.mp hq'
  obtain ⟨c3, s3, rfl, h3, hq'⟩ := List.map_eq_cons_iff.mp hq'
  obtain ⟨c4, s4, rfl, h4, hq'⟩ := List.map_eq_cons_iff.mp hq'
  obtain ⟨c5, s5, rfl, h5, hq'⟩ := List.map_eq_cons_iff.mp hq'
  obtain ⟨c6, s6, rfl, h6, hq'⟩ := List.map_eq_cons_iff.mp hq'
  obtain ⟨c7, s7, rfl, h7, hq'⟩ := List.map_eq_cons_iff.mp hq'
  obtain ⟨c8, s8, rfl, h8, hq'⟩ := List.map_eq_cons_iff.mp hq'
  refine ⟨[c0, c1, c2, c3, c4, c5, c6, c7], c8, s8, by simp, rfl, ?_, ?_, rfl⟩
  · intro c hc
    simp only [List.mem_cons, List.not_mem_nil, or_false] at hc
    rcases hc with rfl | rfl | rfl | rfl | rfl | rfl | rfl | rfl
    · exact not_ws_of_toLower c 'l' h0 (by decide)
    · exact not_ws_of_toLower c 'e' h1 (by decide)
    · exact not_ws_of_toLower c 'v' h2 (by decide)
    · exact not_ws_of_toLower c 'e' h3 (by decide)
    · exact not_ws_of_toLower c 'r' h4 (by decide)
    · exact not_ws_of_toLower c 'a' h5 (by decide)
    · exact not_ws_of_toLower c 'g' h6 (by decide)
    · exact not_ws_of_toLower c 'e' h7 (by decide)
  · exact ws_of_toLower_eq_space c8 h8

/-- On a line whose stripped lowercase form starts with the leverage keyword,
parse reaches the leverage branch and its outcome is determined by splitting
the remaining text (drop 9 of the stripped line): the first word of the full
split is the keyword itself, so three words overall means exactly two words of
remaining text. -/
theorem parse_leverage_eq (raw : String)
    (hlev : startsWithL "leverage ".toList (lowerL (strip raw.toList)) = true) :
    parse raw =
      (if (splitWs ((strip raw.toList).drop 9)).length = 2 then
        match pyIntOfChars ((splitWs ((strip raw.toList).drop 9)).getD 0 []),
            pyIntOfChars ((splitWs ((strip raw.toList).drop 9)).getD 1 []) with
        | some a, some b => Command.directLeverageUpdate a b
        | _, _ => Command.unrecognized invalidLeverageMsg
       else Command.unrecognized leverageUsageMsg) := by
  obtain ⟨w, c8, rest, hst, hw8, hwns, hc8, hdrop⟩ := lev_decomp (strip raw.toList) hlev
  obtain ⟨q, hq⟩ := (startsWithL_iff _ _).mp hlev
  rw [show ("leverage ".toList) = ['l', 'e', 'v', 'e', 'r', 'a', 'g', 'e', ' '] from rfl,
    List.cons_append] at hq
  have h1 : ¬(strip raw.toList = []) := by
    rw [hst]
    rcases w with _ | ⟨x, w'⟩ <;> simp
  have h2 : ¬(lowerL (strip raw.toList) = "quit".toList ∨
      lowerL (strip raw.toList) = "exit".toList ∨
      lowerL (strip raw.toList) = "q".toList) := by
    rintro (hx | hx | hx) <;> rw [hq] at hx
    · rw [show ("quit".toList) = ['q', 'u', 'i', 't'] from rfl] at hx
      injection hx with ha _
      exact absurd ha (by decide)
    · rw [show ("exit".toList) = ['e', 'x', 'i', 't'] from rfl] at hx
      injection hx with ha _
      exact absurd ha (by decide)
    · rw [show ("q".toList) = ['q'] from rfl] at hx
      injection hx with ha _
      exact absurd ha (by decide)
  have h3 : ¬(lowerL (strip raw.toList) = "help".toList) := by
    intro hx
    rw [hq, show ("help".toList) = ['h', 'e', 'l', 'p'] from rfl] at hx
    injection hx with ha _
    exact absurd ha (by decide)
  have h4 : ¬(startsWithL "token ".toList (lowerL (strip raw.toList)) = true) := by
    intro hx
    rw [hq, show ("token ".toList) = ['t', 'o', 'k', 'e', 'n', ' '] from rfl] at hx
    rw [startsWithL] at hx
    simp at hx
  have hwne : w ≠ [] := by
    intro hw
    rw [hw] at hw8
    exact absurd hw8 (by decide)
  have hsplit : splitWs (strip raw.toList) = w :: splitWs rest := by
    rw [hst]
    have := splitWsAux_word w [] c8 rest hwns hc8 (by simpa using hwne)
    simpa [splitWs] using this
  rw [parse_eq, if_neg h1, if_neg h2, if_neg h3, if_neg h4, if_pos hlev]
  rw [hsplit, hdrop]
  by_cases hlen : (splitWs rest).length = 2
  · rw [if_pos (by simp [hlen]), if_pos hlen]
    rw [show (w :: splitWs rest).getD 1 [] = (splitWs rest).getD 0 [] from rfl,
      show (w :: splitWs rest).getD 2 [] = (splitWs rest).getD 1 [] from rfl]
  · rw [if_neg (by simp [hlen]), if_neg hlen]

/-- C4: for every raw line that case-insensitively starts with the leverage
keyword: if the remaining text splits on whitespace into exactly two words
that both parse as integers a and b, parse yields DirectLeverageUpdate a b;
with any other word count, or with a word that fails integer parsing, parse
yields an Unrecognized command with the corresponding invalid-leverage message
— and never a natural-language prompt and never a silent skip. -/
theorem C4_leverage_parsing (raw : String)
    (hlev : startsWithL "leverage ".toList (lowerL (strip raw.toList)) = true) :
    (∀ a b x y, splitWs ((strip raw.toList).drop 9) = [a, b] →
      pyIntOfChars a = some x → pyIntOfChars b = some y →
      parse raw = .directLeverageUpdate x y) ∧
    (∀ a b, splitWs ((strip raw.toList).drop 9) = [a, b] →
      (pyIntOfChars a = none ∨ pyIntOfChars b = none) →
      parse raw = .unrecognized invalidLeverageMsg) ∧
    ((splitWs ((strip raw.toList).drop 9)).length ≠ 2 →
      parse raw = .unrecognized leverageUsageMsg) ∧
    (∀ t, parse raw ≠ .naturalLanguagePrompt t) ∧
    parse raw ≠ .skip := by
  rw [parse_leverage_eq raw hlev]
  refine ⟨?_, ?_, ?_, ?_, ?_⟩
  · intro a b x y hs ha hb
    rw [hs]
    rw [if_pos (by simp)]
    simp only [List.getD_cons_zero, List.getD_cons_succ]
    rw [ha, hb]
  · intro a b hs hor
    rw [hs]
    rw [if_pos (by simp)]
    simp only [List.getD_cons_zero, List.getD_cons_succ]
    rcases hor with ha | hb
    · rw [ha]
    · rw [hb]
      cases pyIntOfChars a <;> rfl
  · intro hlen
    rw [if_neg hlen]
  · intro t
    split
    · split <;> simp
    · simp
  · split
    · split <;> simp
    · simp

/-- Witness for C4 on a concrete well-formed leverage line. -/
theorem C4_witness : parse "leverage 0 20" = .directLeverageUpdate 0 20 :=
  (C4_leverage_parsing "leverage 0 20" (by decide)).1 ['0'] ['2', '0'] 0 20
    (by decide) (by decide) (by decide)

/-- Inversion for the setToken branch: the stored value is the stripped
remainder (after the six keyword characters) of the original stripped line. -/
theorem parse_setToken_inv (raw v : String) (h : parse raw = .setToken v) :
    v = (strip ((strip raw.toList).drop 6)).asString := by
  rw [parse_eq] at h
  split at h
  · exact absurd h (by simp)
  split at h
  · exact absurd h (by simp)
  split at h
  · exact absurd h (by simp)
  split at h
  · split at h
    · exact absurd h (by simp)
    · exact (Command.setToken.inj h).symm
  · split at h
    · split at h
      · split at h <;> exact absurd h (by simp)
      · exact absurd h (by simp)
    · exact absurd h (by simp)

/-- Inversion for the prompt branch: the prompt text is the whole stripped
original line. -/
theorem parse_prompt_inv (raw t : String)
    (h : parse raw = .naturalLanguagePrompt t) :
    t = (strip raw.toList).asString := by
  rw [parse_eq] at h
  split at h
  · exact absurd h (by simp)
  split at h
  · exact absurd h (by simp)
  split at h
  · exact absurd h (by simp)
  split at h
  · split at h <;> exact absurd h (by simp)
  · split at h
    · split at h
      · split at h <;> exact absurd h (by simp)
      · exact absurd h (by simp)
    · exact (Command.naturalLanguagePrompt.inj h).symm

/-- Transitivity of the contiguous-segment relation, stated with explicit
surrounding pieces. -/
theorem seg_trans {l m k : List Char} (h1 : ∃ p q, l = p ++ m ++ q)
    (h2 : ∃ p q, m = p ++ k ++ q) : ∃ p q, l = p ++ k ++ q := by
  obtain ⟨p1, q1, rfl⟩ := h1
  obtain ⟨p2, q2, rfl⟩ := h2
  exact ⟨p1 ++ p2, q2 ++ q1, by simp [List.append_assoc]⟩

/-- Dropping is a contiguous segment of the original character list. -/
theorem drop_segment (n : Nat) (l : List Char) :
    ∃ pre post, l = pre ++ l.drop n ++ post :=
  ⟨l.take n, [], by simp⟩

/-- Stripping yields a contiguous segment of the original character list. -/
theorem strip_segment (l : List Char) :
    ∃ pre post, l = pre ++ strip l ++ post := by
  obtain ⟨t1, ht1⟩ := List.dropWhile_suffix (l := l) isSpace
  obtain ⟨t2, ht2⟩ :=
    List.dropWhile_suffix (l := (l.dropWhile isSpace).reverse) isSpace
  refine ⟨t1, t2.reverse, ?_⟩
  have hm : l.dropWhile isSpace = strip l ++ t2.reverse := by
    rw [strip]
    have h := congrArg List.reverse ht2
    rw [List.reverse_append, List.reverse_reverse] at h
    exact h.symm
  rw [List.append_assoc, ← hm]
  exact ht1.symm

/-- C9: keyword classification is case-insensitive but payloads keep the
original casing: a parsed setToken value is the untouched (not lowercased)
stripped remainder of the original line, a parsed prompt is the stripped
original line verbatim, both are contiguous segments of the raw input line, the
POST body of a dispatched prompt carries that verbatim text, and on concrete
mixed-case input the stored value is the mixed-case remainder, not its
lowercase form. -/
theorem C9_casing (raw : String) :
    (∀ v, parse raw = .setToken v →
      v = (strip ((strip raw.toList).drop 6)).asString ∧
      ∃ pre post, raw.toList = pre ++ v.toList ++ post) ∧
    (∀ t, parse raw = .naturalLanguagePrompt t →
      t = (strip raw.toList).asString ∧
      ∃ pre post, raw.toList = pre ++ t.toList ++ post) ∧
    (∀ t tr (c : TradingClient), parse raw = .naturalLanguagePrompt t →
      tokenNotSet c = false →
      (loopIter c (.line raw tr)).calls =
        [⟨"POST", "/api/prompt", .promptBody t, 120⟩]) ∧
    parse "TOKEN AbC" = .setToken "AbC" ∧
    parse "TOKEN AbC" ≠ .setToken "abc" ∧
    parse "Buy 0.1 ETH NOW" = .naturalLanguagePrompt "Buy 0.1 ETH NOW" := by
  refine ⟨?_, ?_, ?_, by decide, by decide, by decide⟩
  · intro v hv
    have h1 := parse_setToken_inv raw v hv
    refine ⟨h1, ?_⟩
    have h2 : v.toList = strip ((strip raw.toList).drop 6) := by
      rw [h1, List.toList_asString]
    rw [h2]
    exact seg_trans (seg_trans (strip_segment raw.toList)
      (drop_segment 6 (strip raw.toList)))
      (strip_segment ((strip raw.toList).drop 6))
  · intro t ht
    have h1 := parse_prompt_inv raw t ht
    refine ⟨h1, ?_⟩
    have h2 : t.toList = strip raw.toList := by
      rw [h1, List.toList_asString]
    rw [h2]
    exact strip_segment raw.toList
  · intro t tr c ht hc
    simp [loopIter, ht, send_prompt, hc]

/-- Witness for C9: the value stored for the line TOKEN AbC is AbC with its
casing preserved, a contiguous segment of the original line. -/
theorem C9_witness :
    "AbC" = (strip ((strip ("TOKEN AbC" : String).toList).drop 6)).asString ∧
    ∃ pre post, ("TOKEN AbC" : String).toList =
      pre ++ ("AbC" : String).toList ++ post :=
  (C9_casing "TOKEN AbC").1 "AbC" (by decide)

end TradingClientModel
